import Mathlib

/-!
# Verification of the DMLS agent core

A shallow embedding of the DMLS repository (`src/dmls/src/`): the versioned
key-value persistence layer (`openmls_kvstore.rs`), the session state
(`state.rs`) and the continuity-orchestrator helpers (`helpers.rs`).

Rust byte strings (`Vec<u8>`, `&[u8]`) are modelled as `List Nat` with every
element below 256; Rust `String`s (the KV store holds base64 text in a
`HashMap<String, String>`) are modelled as `List Nat` of character codes.
External collaborators (the OpenMLS group engine, `serde_json` on
engine-defined entity types) are modelled from the spec where noted; the
`base64` codec (standard alphabet, padded, trailing bits rejected) is
implemented concretely because the store's behaviour depends on it.
-/

/-- A Rust byte string: a list of byte values. -/
abbrev ByteStr := List Nat

/-- All elements of a byte string are valid byte values (below 256). -/
def ValidBytes (bs : ByteStr) : Prop := ∀ b ∈ bs, b < 256

/-- The backing map of `OpenMlsKeyValueStore`: a `HashMap<String, String>`
modelled as an association list from key strings to value strings
(strings as lists of character codes). -/
abbrev Store := List (ByteStr × ByteStr)

/-- Models `HashMap::insert`: replace the binding for `k` if present, else add it. -/
def mapInsert (k v : ByteStr) : Store → Store
  | [] => [(k, v)]
  | (k', v') :: t => if k' = k then (k, v) :: t else (k', v') :: mapInsert k v t

/-- Models `HashMap::get`. -/
def mapLookup (m : Store) (k : ByteStr) : Option ByteStr :=
  match m with
  | [] => none
  | (k', v') :: t => if k' = k then some v' else mapLookup t k

/-- Models `HashMap::remove` (the removed value is discarded by all call sites).
A `HashMap` holds at most one binding per key; on the association-list model
this is removal of every binding for `k`, which agrees with the hash map on
all states reachable through `mapInsert`/`mapRemove`. -/
def mapRemove (k : ByteStr) : Store → Store
  | [] => []
  | (k', v') :: t => if k' = k then mapRemove k t else (k', v') :: mapRemove k t

theorem mapLookup_insert (m : Store) (k v : ByteStr) :
    mapLookup (mapInsert k v m) k = some v := by
  induction m with
  | nil => simp [mapInsert, mapLookup]
  | cons hd t ih =>
    obtain ⟨k', v'⟩ := hd
    by_cases h : k' = k <;> simp [mapInsert, mapLookup, h, ih]

theorem mapLookup_insert_ne (m : Store) (k k' v : ByteStr) (h : k' ≠ k) :
    mapLookup (mapInsert k v m) k' = mapLookup m k' := by
  induction m with
  | nil => simp [mapInsert, mapLookup, Ne.symm h]
  | cons hd t ih =>
    obtain ⟨k₀, v₀⟩ := hd
    by_cases h0 : k₀ = k
    · subst h0
      simp [mapInsert, mapLookup, Ne.symm h]
    · by_cases h1 : k₀ = k'
      · subst h1
        simp [mapInsert, mapLookup, h0]
      · simp [mapInsert, mapLookup, h0, h1, ih]

theorem mapLookup_remove_self (m : Store) (k : ByteStr) :
    mapLookup (mapRemove k m) k = none := by
  induction m with
  | nil => simp [mapRemove, mapLookup]
  | cons hd t ih =>
    obtain ⟨k₀, v₀⟩ := hd
    by_cases h0 : k₀ = k <;> simp [mapRemove, mapLookup, h0, ih]

theorem mapLookup_remove_ne (m : Store) (k k' : ByteStr) (h : k' ≠ k) :
    mapLookup (mapRemove k m) k' = mapLookup m k' := by
  induction m with
  | nil => simp [mapRemove]
  | cons hd t ih =>
    obtain ⟨k₀, v₀⟩ := hd
    by_cases h0 : k₀ = k
    · subst h0
      simp [mapRemove, mapLookup, Ne.symm h, ih]
    · by_cases h1 : k₀ = k'
      · subst h1
        simp [mapRemove, mapLookup, h0, Ne.symm h, ih]
      · simp [mapRemove, mapLookup, h0, h1, ih]

/-! ## Base64 (standard alphabet, padding required, trailing bits rejected)

Models `base64::engine::general_purpose::STANDARD` as used throughout
`openmls_kvstore.rs`. Characters are represented by their codes. -/

/-- The standard base64 alphabet, as a character code for each 6-bit index. -/
def b64char (n : Nat) : Nat :=
  if n < 26 then 65 + n
  else if n < 52 then 97 + (n - 26)
  else if n < 62 then 48 + (n - 52)
  else if n = 62 then 43 else 47

/-- Inverse alphabet lookup; `none` for a code outside the alphabet. -/
def b64idx (c : Nat) : Option Nat :=
  if 65 ≤ c ∧ c ≤ 90 then some (c - 65)
  else if 97 ≤ c ∧ c ≤ 122 then some (26 + (c - 97))
  else if 48 ≤ c ∧ c ≤ 57 then some (52 + (c - 48))
  else if c = 43 then some 62
  else if c = 47 then some 63
  else none

/-- Models `Base64.encode`: three input bytes per four output characters, with
`'='` (code 61) padding for a final chunk of one or two bytes. -/
def b64encode : ByteStr → ByteStr
  | [] => []
  | [a] => [b64char (a / 4), b64char (a % 4 * 16), 61, 61]
  | [a, b] => [b64char (a / 4), b64char (a % 4 * 16 + b / 16), b64char (b % 16 * 4), 61]
  | a :: b :: c :: rest =>
      b64char (a / 4) :: b64char (a % 4 * 16 + b / 16) ::
        b64char (b % 16 * 4 + c / 64) :: b64char (c % 64) :: b64encode rest

/-- Models `Base64.decode`: four characters per three bytes; rejects input whose
length is not a multiple of four, characters outside the alphabet, misplaced
padding, and non-zero trailing bits. -/
def b64decode : ByteStr → Option ByteStr
  | [] => some []
  | [c1, c2, 61, 61] =>
      match b64idx c1, b64idx c2 with
      | some i1, some i2 =>
          if i2 % 16 = 0 then some [i1 * 4 + i2 / 16] else none
      | _, _ => none
  | [c1, c2, c3, 61] =>
      match b64idx c1, b64idx c2, b64idx c3 with
      | some i1, some i2, some i3 =>
          if i3 % 4 = 0 then some [i1 * 4 + i2 / 16, i2 % 16 * 16 + i3 / 4] else none
      | _, _, _ => none
  | c1 :: c2 :: c3 :: c4 :: rest =>
      match b64idx c1, b64idx c2, b64idx c3, b64idx c4, b64decode rest with
      | some i1, some i2, some i3, some i4, some tail =>
          some ((i1 * 4 + i2 / 16) :: (i2 % 16 * 16 + i3 / 4) :: (i3 % 4 * 64 + i4) :: tail)
      | _, _, _, _, _ => none
  | _ => none

/-- The alphabet map is injective on 6-bit indices. -/
theorem b64char_inj : ∀ i j : Fin 64, b64char i.val = b64char j.val → i = j := by decide

/-- Models `u16::to_be_bytes` for a version below 2^16. -/
def u16_to_be_bytes (v : Nat) : ByteStr := [v / 256, v % 256]

/-- Models `u64::to_be_bytes` for an epoch number below 2^64. -/
def u64_to_be_bytes (n : Nat) : ByteStr :=
  [n / 72057594037927936 % 256, n / 281474976710656 % 256,
   n / 1099511627776 % 256, n / 4294967296 % 256,
   n / 16777216 % 256, n / 65536 % 256, n / 256 % 256, n % 256]

/-- Models `build_key_from_vec` (`openmls_kvstore.rs`): the encoded storage key is
`label ∥ rawKey ∥ beBytes16(version)`. -/
def build_key_from_vec (version : Nat) (label : ByteStr) (key : ByteStr) : ByteStr :=
  label ++ key ++ u16_to_be_bytes version

/-! ## Compact JSON for `Vec<Vec<u8>>`

`openmls_kvstore.rs` stores each list entity as the `serde_json` encoding of
a `Vec<Vec<u8>>`: compact JSON text such as `[[1,2],[]]`. The serializer and
the full-input parser are implemented concretely (structural recursion with
fuel, so terms evaluate by `decide`). -/

/-- Big-endian decimal digits of `n`; the fuel argument only bounds the
recursion and is always sufficient at `n + 1`. -/
def digitsAux : Nat → Nat → List Nat
  | 0, _ => []
  | fuel + 1, n => if n < 10 then [n] else digitsAux fuel (n / 10) ++ [n % 10]

/-- The decimal rendering of `n` as character codes. -/
def renderNum (n : Nat) : ByteStr := (digitsAux (n + 1) n).map (fun d => 48 + d)

/-- Join pre-rendered elements with `','` (code 44). -/
def joinComma : List ByteStr → ByteStr
  | [] => []
  | [x] => x
  | x :: xs => x ++ 44 :: joinComma xs

/-- Models `serde_json::to_vec` of one inner `Vec<u8>`: `'[' nums ']'`. -/
def serVec (bs : ByteStr) : ByteStr := 91 :: joinComma (bs.map renderNum) ++ [93]

/-- Models `serde_json::to_vec` of a `Vec<Vec<u8>>`. -/
def serVecVec (l : List ByteStr) : ByteStr := 91 :: joinComma (l.map serVec) ++ [93]

/-- Parse a decimal number; `none` when the input does not start with a
digit. Returns the value and the unconsumed remainder. -/
def parseNum : ByteStr → Option (Nat × ByteStr) :=
  fun s =>
    match parseDigits s with
    | ([], _) => none
    | (ds, rest) => some (ds.foldl (fun acc d => acc * 10 + d) 0, rest)
where
  /-- Consume a maximal run of digit characters. -/
  parseDigits : ByteStr → List Nat × ByteStr
    | [] => ([], [])
    | c :: rest =>
        if 48 ≤ c ∧ c ≤ 57 then
          let (ds, r) := parseDigits rest
          ((c - 48) :: ds, r)
        else ([], c :: rest)

/-- Parse the comma-separated elements and closing `']'` of a non-empty
inner list, fuelled by the input length. -/
def parseVecElems : Nat → ByteStr → Option (List Nat × ByteStr)
  | 0, _ => none
  | fuel + 1, s =>
      match parseNum s with
      | none => none
      | some (n, rest) =>
          match rest with
          | 93 :: r => some ([n], r)
          | 44 :: r =>
              match parseVecElems fuel r with
              | some (ns, r2) => some (n :: ns, r2)
              | none => none
          | _ => none

/-- Parse one inner `Vec<u8>` JSON array. -/
def parseVec (fuel : Nat) : ByteStr → Option (List Nat × ByteStr)
  | 91 :: 93 :: r => some ([], r)
  | 91 :: rest => parseVecElems fuel rest
  | _ => none

/-- Parse the comma-separated elements and closing `']'` of a non-empty
outer list. -/
def parseVecVecElems : Nat → ByteStr → Option (List ByteStr × ByteStr)
  | 0, _ => none
  | fuel + 1, s =>
      match parseVec fuel s with
      | none => none
      | some (v, rest) =>
          match rest with
          | 93 :: r => some ([v], r)
          | 44 :: r =>
              match parseVecVecElems fuel r with
              | some (vs, r2) => some (v :: vs, r2)
              | none => none
          | _ => none

/-- Parse a `Vec<Vec<u8>>` JSON array, returning the remainder. -/
def parseVecVec (fuel : Nat) : ByteStr → Option (List ByteStr × ByteStr)
  | 91 :: 93 :: r => some ([], r)
  | 91 :: rest => parseVecVecElems fuel rest
  | _ => none

/-- Models `serde_json::from_slice::<Vec<Vec<u8>>>`: the whole input must parse,
with no trailing bytes. -/
def parseVecVecFull (s : ByteStr) : Option (List ByteStr) :=
  match parseVecVec s.length s with
  | some (l, []) => some l
  | _ => none

/-! ## Entity labels and store operations (`openmls_kvstore.rs`) -/

/-- Character codes of a string literal, for the label constants. -/
def strBytes (s : String) : ByteStr := s.toList.map Char.toNat

def KEY_PACKAGE_LABEL : ByteStr := strBytes "KeyPackage"
def PSK_LABEL : ByteStr := strBytes "Psk"
def ENCRYPTION_KEY_PAIR_LABEL : ByteStr := strBytes "EncryptionKeyPair"
def SIGNATURE_KEY_PAIR_LABEL : ByteStr := strBytes "SignatureKeyPair"
def EPOCH_KEY_PAIRS_LABEL : ByteStr := strBytes "EpochKeyPairs"
def TREE_LABEL : ByteStr := strBytes "Tree"
def GROUP_CONTEXT_LABEL : ByteStr := strBytes "GroupContext"
def INTERIM_TRANSCRIPT_HASH_LABEL : ByteStr := strBytes "InterimTranscriptHash"
def CONFIRMATION_TAG_LABEL : ByteStr := strBytes "ConfirmationTag"
def JOIN_CONFIG_LABEL : ByteStr := strBytes "MlsGroupJoinConfig"
def OWN_LEAF_NODES_LABEL : ByteStr := strBytes "OwnLeafNodes"
def GROUP_STATE_LABEL : ByteStr := strBytes "GroupState"
def QUEUED_PROPOSAL_LABEL : ByteStr := strBytes "QueuedProposal"
def PROPOSAL_QUEUE_REFS_LABEL : ByteStr := strBytes "ProposalQueueRefs"
def OWN_LEAF_NODE_INDEX_LABEL : ByteStr := strBytes "OwnLeafNodeIndex"
def EPOCH_SECRETS_LABEL : ByteStr := strBytes "EpochSecrets"
def RESUMPTION_PSK_STORE_LABEL : ByteStr := strBytes "ResumptionPsk"
def MESSAGE_SECRETS_LABEL : ByteStr := strBytes "MessageSecrets"

/-- Models `openmls_traits::storage::CURRENT_VERSION`. -/
def CURRENT_VERSION : Nat := 1

/-- The single error kind of the store (`OpenMlsKeyValueStoreError`). -/
inductive KvError where
  | serializationError
  deriving DecidableEq, Repr

/-- Outcome of a store operation: normal return carrying the store as left
by the operation, an `Err` return (the store as mutated so far), or a Rust
panic (an `unwrap()` failure), also carrying the store at the panic point. -/
inductive KvResult (α : Type) where
  | ok (store : Store) (val : α)
  | err (store : Store) (e : KvError)
  | panicked (store : Store)
  deriving DecidableEq, Repr

namespace OpenMlsKeyValueStore

/-- Models `OpenMlsKeyValueStore::write`: insert the base64-encoded key and value;
never fails. -/
def write (version : Nat) (label key value : ByteStr) (store : Store) : Store :=
  let storage_key := build_key_from_vec version label key
  mapInsert (b64encode storage_key) (b64encode value) store

/-- Models `OpenMlsKeyValueStore::append`: fetch the current list via
`entry(..).or_insert("[]")` (inserting the literal two-character string
`"[]"`, codes `[91, 93]`, when the key is absent), base64-decode it with
`.unwrap()` (a panic when decoding fails — in particular on the freshly
inserted `"[]"`, which is not valid base64), parse it as `Vec<Vec<u8>>`
(`?`, a `SerializationError`), push `value`, and write the re-encoded list
back. -/
def append (version : Nat) (label key value : ByteStr) (store : Store) : KvResult Unit :=
  let storage_key := b64encode (build_key_from_vec version label key)
  let list_bytes := (mapLookup store storage_key).getD [91, 93]
  let store1 :=
    match mapLookup store storage_key with
    | some _ => store
    | none => mapInsert storage_key [91, 93] store
  match b64decode list_bytes with
  | none => .panicked store1
  | some bytes =>
      match parseVecVecFull bytes with
      | none => .err store1 .serializationError
      | some list =>
          let newList := list ++ [value]
          .ok (mapInsert storage_key (b64encode (serVecVec newList)) store1) ()

/-- Remove the first occurrence of `v` (`position` + `remove`). -/
def removeFirst (v : ByteStr) : List ByteStr → List ByteStr
  | [] => []
  | x :: t => if x = v then t else x :: removeFirst v t

/-- Models `OpenMlsKeyValueStore::remove_item`: same fetch-and-decode pattern as
`append` (including the `or_insert("[]")` insertion and the base64
`.unwrap()` panic on an absent key), then remove the first element equal to
`value` and write the re-encoded list back. -/
def remove_item (version : Nat) (label key value : ByteStr) (store : Store) : KvResult Unit :=
  let storage_key := b64encode (build_key_from_vec version label key)
  let list_bytes := (mapLookup store storage_key).getD [91, 93]
  let store1 :=
    match mapLookup store storage_key with
    | some _ => store
    | none => mapInsert storage_key [91, 93] store
  match b64decode list_bytes with
  | none => .panicked store1
  | some bytes =>
      match parseVecVecFull bytes with
      | none => .err store1 .serializationError
      | some list =>
          let newList := removeFirst value list
          .ok (mapInsert storage_key (b64encode (serVecVec newList)) store1) ()

/-- Models `OpenMlsKeyValueStore::read`: absent key gives `Ok(None)`; a present
value is base64-decoded with `.unwrap()` (panic on failure), then decoded by
`serde_json::from_slice::<V>` — modelled by the `decodeV` parameter — with
failures mapped to `SerializationError`. The store is never mutated. -/
def read {V : Type} (decodeV : ByteStr → Option V) (version : Nat)
    (label key : ByteStr) (store : Store) : KvResult (Option V) :=
  let storage_key := b64encode (build_key_from_vec version label key)
  match mapLookup store storage_key with
  | none => .ok store none
  | some value =>
      match b64decode value with
      | none => .panicked store
      | some bytes =>
          match decodeV bytes with
          | none => .err store .serializationError
          | some v => .ok store (some v)

/-- Models `OpenMlsKeyValueStore::read_list`: absent key gives `Ok(vec![])`; a
present value is base64-decoded with `.unwrap()` and parsed as
`Vec<Vec<u8>>` with a second `.unwrap()` (both panics on failure); each
element is then decoded by `decodeV`, failures collected into
`SerializationError`. The storage key is built by the same inline
concatenation as `build_key_from_vec`. -/
def read_list {V : Type} (decodeV : ByteStr → Option V) (version : Nat)
    (label key : ByteStr) (store : Store) : KvResult (List V) :=
  let storage_key := b64encode (label ++ key ++ u16_to_be_bytes version)
  match mapLookup store storage_key with
  | none => .ok store []
  | some list_bytes =>
      match b64decode list_bytes with
      | none => .panicked store
      | some bytes =>
          match parseVecVecFull bytes with
          | none => .panicked store
          | some value =>
              match value.mapM decodeV with
              | none => .err store .serializationError
              | some vs => .ok store vs

/-- Models `OpenMlsKeyValueStore::delete`: remove the encoded key; idempotent,
never fails. The storage key is built by the same inline concatenation. -/
def delete (version : Nat) (label key : ByteStr) (store : Store) : Store :=
  mapRemove (b64encode (label ++ key ++ u16_to_be_bytes version)) store

end OpenMlsKeyValueStore

/-! ## Session state (`state.rs`) -/

/-- The signing identity (`openmls_keys.rs`), carried opaquely. -/
structure SignatureKeyPair where
  private_key_raw : ByteStr
  public_key_raw : ByteStr
  scheme : Nat
  deriving DecidableEq, Repr

/-- Models `DmlsState`: send-group id bytes (empty means unset), the FIFO queue of
exporter-PSK identifiers, the signing identity, and the KV store. -/
structure DmlsState where
  send_group_id : ByteStr
  exporter_psk_queue : List ByteStr
  signature_key_pair : SignatureKeyPair
  openmls_values : Store
  deriving DecidableEq, Repr

namespace DmlsState

/-- Models `DmlsState::new`: empty queue, unset send-group id, empty store. -/
def new (skp : SignatureKeyPair) : DmlsState :=
  { send_group_id := [], exporter_psk_queue := [], signature_key_pair := skp,
    openmls_values := [] }

/-- Models `DmlsState::set_send_group_id`. -/
def set_send_group_id (s : DmlsState) (gid : ByteStr) : DmlsState :=
  { s with send_group_id := gid }

/-- Models `DmlsState::push_exporter_psk_id`: append at the queue tail. -/
def push_exporter_psk_id (s : DmlsState) (psk : ByteStr) : DmlsState :=
  { s with exporter_psk_queue := s.exporter_psk_queue ++ [psk] }

/-- Models `DmlsState::clear_exporter_psk_ids`: `mem::take` of the queue — return
the whole queue and leave it empty. -/
def clear_exporter_psk_ids (s : DmlsState) : List ByteStr × DmlsState :=
  (s.exporter_psk_queue, { s with exporter_psk_queue := [] })

/-- Models `DmlsState::send_group_id()`: `None` when the stored bytes are empty. -/
def send_group_id? (s : DmlsState) : Option ByteStr :=
  if s.send_group_id = [] then none else some s.send_group_id

end DmlsState

/-! ## The group engine boundary

The OpenMLS `MlsGroup` is an external black box (spec §2); only the slice of
its behaviour that the helpers observe is modelled, from the spec's contract
for the engine. -/

/-- Modelled from the spec: the observable face of an `MlsGroup` — its id,
epoch and membership flag (`groupEpoch`, `isActive`). -/
structure MlsGroup where
  group_id : ByteStr
  epoch : Nat
  active : Bool
  deriving DecidableEq, Repr

/-- Modelled from the spec: a staged commit, abstracted to the outcome the
engine reports when merging it — whether the merge validates, the epoch it
advances to, and whether this participant is still in the tree afterwards. -/
structure StagedCommit where
  merge_ok : Bool
  new_epoch : Nat
  still_active : Bool
  deriving DecidableEq, Repr

/-- Modelled from the spec: a pre-shared-key proposal as placed in a commit
by `inject_psks` — the ciphersuite, the random nonce and the external PSK
identifier it references. -/
structure PskProposal where
  ciphersuite : Nat
  nonce : ByteStr
  pskId : ByteStr
  deriving DecidableEq, Repr

/-- Modelled from the spec: an outgoing commit message, abstracted to the
list of pre-shared-key proposals it carries (a self-update or add commit
carries none). -/
structure CommitMsg where
  pskProposals : List PskProposal
  deriving DecidableEq, Repr

/-- Modelled from the spec: the `serde_json` encoding of a `GroupId` used as
a storage key — a deterministic, injective encoding of the id bytes. -/
def serGroupIdKey (gid : ByteStr) : ByteStr := serVec gid

/-- Modelled from the spec: the `serde_json` encoding of the persisted group
state (deterministic in the observable group fields). -/
def serGroup (g : MlsGroup) : ByteStr :=
  serVecVec [g.group_id, [g.epoch, if g.active then 1 else 0]]

/-- Modelled from the spec: the `serde_json` encoding of a
`PreSharedKeyId` (ciphersuite, nonce and external PSK id). -/
def serPskIdKey (cs : Nat) (nonce pskid : ByteStr) : ByteStr :=
  serVecVec [[cs], nonce, pskid]

/-- Modelled from the spec: the `serde_json` encoding of a stored PSK
bundle (the derived secret). -/
def serPskBundle (secret : ByteStr) : ByteStr := serVec secret

/-- Models `StorageProvider::write_group_state` (`openmls_kvstore.rs`). -/
def write_group_state (gid : ByteStr) (value : ByteStr) (store : Store) : Store :=
  OpenMlsKeyValueStore.write CURRENT_VERSION GROUP_STATE_LABEL (serGroupIdKey gid) value store

/-- Models `StorageProvider::write_psk` (`openmls_kvstore.rs`). -/
def write_psk (cs : Nat) (nonce pskid secret : ByteStr) (store : Store) : Store :=
  OpenMlsKeyValueStore.write CURRENT_VERSION PSK_LABEL (serPskIdKey cs nonce pskid)
    (serPskBundle secret) store

/-- The per-group-id entity labels: every scalar entity the engine persists
under a bare group-id key (spec §3's entity list). -/
def groupLabels : List ByteStr :=
  [TREE_LABEL, GROUP_CONTEXT_LABEL, INTERIM_TRANSCRIPT_HASH_LABEL, CONFIRMATION_TAG_LABEL,
   JOIN_CONFIG_LABEL, OWN_LEAF_NODES_LABEL, OWN_LEAF_NODE_INDEX_LABEL, EPOCH_SECRETS_LABEL,
   RESUMPTION_PSK_STORE_LABEL, MESSAGE_SECRETS_LABEL, GROUP_STATE_LABEL]

/-- The encoded storage key of one per-group-id entity. -/
def groupEntityKey (label gid : ByteStr) : ByteStr :=
  b64encode (build_key_from_vec CURRENT_VERSION label (serGroupIdKey gid))

/-- Every per-group-id entity for `gid` is absent from the store. -/
def no_group_entities (gid : ByteStr) (store : Store) : Bool :=
  groupLabels.all (fun label => (mapLookup store (groupEntityKey label gid)).isNone)

/-- Modelled from the spec: `MlsGroup::delete` removes every entity
persisted under the group's id, through the store's delete operations
(`delete_tree`, `delete_group_state`, … in `openmls_kvstore.rs`, each of
which is `OpenMlsKeyValueStore::delete` at the entity's label). -/
def mls_group_delete (g : MlsGroup) (store : Store) : Store :=
  groupLabels.foldl
    (fun s label => OpenMlsKeyValueStore.delete CURRENT_VERSION label (serGroupIdKey g.group_id) s)
    store

/-- Modelled from the spec: `MlsGroup::merge_staged_commit` — on a commit
that validates, advance to the commit's epoch and membership state and
persist the post-merge group state through the store; on a validation
failure, fail without a result. -/
def merge_staged_commit (g : MlsGroup) (c : StagedCommit) (store : Store) :
    Option (MlsGroup × Store) :=
  if c.merge_ok then
    let g' : MlsGroup := { group_id := g.group_id, epoch := c.new_epoch, active := c.still_active }
    some (g', write_group_state g.group_id (serGroup g') store)
  else none

/-- Modelled from the spec: `MlsGroup::load` reads the persisted group
state entity for the id through `OpenMlsKeyValueStore::read`; the entity
decoder stands for `serde_json` on the engine's group-state type. -/
def mls_group_load (decodeG : ByteStr → Option MlsGroup) (store : Store) (gid : ByteStr) :
    KvResult (Option MlsGroup) :=
  OpenMlsKeyValueStore.read decodeG CURRENT_VERSION GROUP_STATE_LABEL (serGroupIdKey gid) store

/-- Modelled from the spec: `clear_pending_commit` + `clear_pending_proposals`
drop any staged uncommitted state, clearing the persisted proposal queue for
the group (`clear_proposal_queue` in `openmls_kvstore.rs`). -/
def clear_pending_state (gid : ByteStr) (store : Store) : Store :=
  OpenMlsKeyValueStore.delete CURRENT_VERSION PROPOSAL_QUEUE_REFS_LABEL (serGroupIdKey gid) store

/-! ## Continuity-orchestrator helpers (`helpers.rs`)

The engine's cryptographic operations are passed in as parameters:
`es` models `MlsGroup::export_secret` (which may fail), `nonce` the
randomness consumed by `PreSharedKeyId::new`, and the entity decoders model
`serde_json` on engine types. -/

/-- Result of a helper, distinguishing a Rust panic from an `Err` return. -/
inductive HelperResult (α : Type) where
  | ok (a : α)
  | error (msg : String)
  | panicked
  deriving DecidableEq, Repr

/-- Models `store_exporter_psk`: the PSK id is `beBytes64(epoch) ∥ groupId`; the
secret comes from the group's exporter (`export_secret`, fallible); the
derived secret is stored through `write_psk` and the id returned. -/
def store_exporter_psk (es : MlsGroup → ByteStr → Nat → Option ByteStr)
    (nonce : ByteStr) (cs exporter_length : Nat) (g : MlsGroup) (store : Store) :
    Option (ByteStr × Store) :=
  let psk_id_vec := u64_to_be_bytes g.epoch ++ g.group_id
  match es g psk_id_vec exporter_length with
  | none => none
  | some psk_secret => some (psk_id_vec, write_psk cs nonce psk_id_vec psk_secret store)

/-- Models `apply_commit`: merge the staged commit (failure aborts); if the
post-merge group is active, derive and store the exporter PSK and push its
id onto the session queue; otherwise delete the group from storage. -/
def apply_commit (es : MlsGroup → ByteStr → Nat → Option ByteStr) (nonce : ByteStr)
    (cs exporter_length : Nat) (st : DmlsState) (g : MlsGroup) (c : StagedCommit) :
    Option (DmlsState × MlsGroup) :=
  match merge_staged_commit g c st.openmls_values with
  | none => none
  | some (g', store1) =>
      if g'.active then
        match store_exporter_psk es nonce cs exporter_length g' store1 with
        | none => none
        | some (psk_id_vec, store2) =>
            some (({ st with openmls_values := store2 }).push_exporter_psk_id psk_id_vec, g')
      else
        some ({ st with openmls_values := mls_group_delete g' store1 }, g')

/-- Models `inject_psks`: clear pending commit/proposal state, drain the whole
exporter-PSK queue (`clear_exporter_psk_ids`), build a commit carrying one
pre-shared-key proposal per drained id in drain order, and merge it
(`buildOk` models the engine's build/load/stage pipeline, which can fail for
engine-internal reasons). The state is returned in all cases — on an engine
failure the queue has already been drained. -/
def inject_psks (buildOk : Bool) (nonce : ByteStr) (cs : Nat)
    (st : DmlsState) (g : MlsGroup) : DmlsState × Option (CommitMsg × MlsGroup) :=
  let st0 := { st with openmls_values := clear_pending_state g.group_id st.openmls_values }
  let (ids, st1) := st0.clear_exporter_psk_ids
  let proposals := ids.map (fun id => PskProposal.mk cs nonce id)
  if buildOk then
    let g' : MlsGroup := { g with epoch := g.epoch + 1 }
    let st2 := { st1 with openmls_values := write_group_state g.group_id (serGroup g') st1.openmls_values }
    (st2, some (CommitMsg.mk proposals, g'))
  else (st1, none)

/-- Models `force_self_update`: clear pending commit/proposal state, perform the
engine self-update and merge it (advancing the epoch; a self-update never
evicts), then derive and store the exporter PSK — whose id is dropped, not
queued (`drop(store_exporter_psk(..))`). `selfUpdOk` models the engine's
self-update/merge pipeline. -/
def force_self_update (selfUpdOk : Bool) (es : MlsGroup → ByteStr → Nat → Option ByteStr)
    (nonce : ByteStr) (cs exporter_length : Nat) (st : DmlsState) (g : MlsGroup) :
    DmlsState × Option (CommitMsg × MlsGroup) :=
  let st0 := { st with openmls_values := clear_pending_state g.group_id st.openmls_values }
  if selfUpdOk then
    let g' : MlsGroup := { g with epoch := g.epoch + 1 }
    let store1 := write_group_state g.group_id (serGroup g') st0.openmls_values
    match store_exporter_psk es nonce cs exporter_length g' store1 with
    | none => ({ st0 with openmls_values := store1 }, none)
    | some (_, store2) => ({ st0 with openmls_values := store2 }, some (CommitMsg.mk [], g'))
  else (st0, none)

/-- Models `send_group`: error when no send-group id is set; otherwise load the
group — a load error propagates (`?`), while a successful load that finds
no group hits `.unwrap()` and panics. -/
def send_group (decodeG : ByteStr → Option MlsGroup) (st : DmlsState) :
    HelperResult MlsGroup :=
  match st.send_group_id? with
  | none => .error "No send group exists"
  | some gid =>
      match mls_group_load decodeG st.openmls_values gid with
      | .err _ _ => .error "SerializationError"
      | .panicked _ => .panicked
      | .ok _ none => .panicked
      | .ok _ (some g) => .ok g

/-- Models `gen_send_group`: when a send-group id is already set, fail with the
precondition error and leave the state untouched; otherwise create the
group through the engine (`newGroup`, which persists the group state and can
fail) and record its id via `set_send_group_id`. -/
def gen_send_group (newGroup : Option MlsGroup) (st : DmlsState) :
    Except String MlsGroup × DmlsState :=
  match st.send_group_id? with
  | none =>
      match newGroup with
      | none => (Except.error "engine failure", st)
      | some g =>
          let st1 := { st with openmls_values := write_group_state g.group_id (serGroup g) st.openmls_values }
          (Except.ok g, st1.set_send_group_id g.group_id)
  | some _ => (Except.error "Send group already exists", st)

/-- Modelled from the spec: the TLS serialization of an outgoing commit
message, a deterministic encoding of its proposal payload. -/
def serCommitMsg (m : CommitMsg) : ByteStr :=
  serVecVec (m.pskProposals.map (fun p => p.pskId))

/-- Models `force_self_update_base64`: `force_self_update`, serialized and
base64-encoded. -/
def force_self_update_base64 (selfUpdOk : Bool) (es : MlsGroup → ByteStr → Nat → Option ByteStr)
    (nonce : ByteStr) (cs exporter_length : Nat) (st : DmlsState) (g : MlsGroup) :
    DmlsState × Option (ByteStr × MlsGroup) :=
  match force_self_update selfUpdOk es nonce cs exporter_length st g with
  | (st', none) => (st', none)
  | (st', some (msg, g')) => (st', some (b64encode (serCommitMsg msg), g'))

/-- Models `send_group_update_base64`: load the send group, run the self-update,
then derive and store the exporter PSK a second time — again dropping the
id without queuing it. -/
def send_group_update_base64 (decodeG : ByteStr → Option MlsGroup) (selfUpdOk : Bool)
    (es : MlsGroup → ByteStr → Nat → Option ByteStr) (nonce : ByteStr)
    (cs exporter_length : Nat) (st : DmlsState) :
    HelperResult ByteStr × DmlsState :=
  match send_group decodeG st with
  | .error e => (.error e, st)
  | .panicked => (.panicked, st)
  | .ok sg =>
      match force_self_update_base64 selfUpdOk es nonce cs exporter_length st sg with
      | (st1, none) => (.error "self-update failed", st1)
      | (st1, some (commit_b64, sg')) =>
          match store_exporter_psk es nonce cs exporter_length sg' st1.openmls_values with
          | none => (.error "exporter psk failed", st1)
          | some (_, store2) => (.ok commit_b64, { st1 with openmls_values := store2 })

/-! ## Concrete instances used by the witnesses and counterexamples -/

/-- A concrete signing identity. -/
def skp0 : SignatureKeyPair := { private_key_raw := [], public_key_raw := [], scheme := 0 }

/-- A concrete exporter function that always derives the secret `[7]`. -/
def esC : MlsGroup → ByteStr → Nat → Option ByteStr := fun _ _ _ => some [7]

/-- A fresh session state. -/
def stFresh : DmlsState := DmlsState.new skp0

/-- A concrete active group with id `[1]` at epoch 0. -/
def gC : MlsGroup := { group_id := [1], epoch := 0, active := true }

/-- A concrete staged commit that validates and keeps the member. -/
def cKeep : StagedCommit := { merge_ok := true, new_epoch := 1, still_active := true }

/-- A concrete staged commit that validates and evicts the member. -/
def cEvict : StagedCommit := { merge_ok := true, new_epoch := 1, still_active := false }

/-- The group `gC` after one committed epoch. -/
def gC1 : MlsGroup := { group_id := [1], epoch := 1, active := true }

/-- The state `apply_commit` produces from `stFresh`, `gC` and `cKeep`. -/
def stKeep : DmlsState :=
  { send_group_id := [], exporter_psk_queue := [u64_to_be_bytes 1 ++ [1]],
    signature_key_pair := skp0,
    openmls_values :=
      write_psk 1 [] (u64_to_be_bytes 1 ++ [1]) [7] (write_group_state [1] (serGroup gC1) []) }

/-- A session state whose send-group id is set but whose stored group-state
entity does not decode. -/
def stCorrupt : DmlsState :=
  { send_group_id := [1], exporter_psk_queue := [], signature_key_pair := skp0,
    openmls_values := [(groupEntityKey GROUP_STATE_LABEL [1], b64encode [5])] }

/-- A session state with its send-group id set to `[1]` and an empty store. -/
def stBound : DmlsState :=
  { send_group_id := [1], exporter_psk_queue := [], signature_key_pair := skp0,
    openmls_values := [] }

/-! ## Supporting lemmas -/

theorem b64encode_head (a : Nat) (xs : ByteStr) :
    ∃ t, b64encode (a :: xs) = b64char (a / 4) :: t := by
  match xs with
  | [] => exact ⟨_, rfl⟩
  | [b] => exact ⟨_, rfl⟩
  | b :: c :: zs => exact ⟨_, rfl⟩

theorem b64encode_ne_of_head (a b : Nat) (xs ys : ByteStr)
    (ha : a < 256) (hb : b < 256) (hne : a / 4 ≠ b / 4) :
    b64encode (a :: xs) ≠ b64encode (b :: ys) := by
  obtain ⟨t1, h1⟩ := b64encode_head a xs
  obtain ⟨t2, h2⟩ := b64encode_head b ys
  rw [h1, h2]
  intro h
  have hchar : b64char (a / 4) = b64char (b / 4) := (List.cons.injEq _ _ _ _ ▸ h).1
  have ha4 : a / 4 < 64 := by omega
  have hb4 : b / 4 < 64 := by omega
  have := b64char_inj ⟨a / 4, ha4⟩ ⟨b / 4, hb4⟩ hchar
  exact hne (congrArg Fin.val this)

theorem mapLookup_none_foldl_delete (labels : List ByteStr) (gid : ByteStr) (store : Store)
    (k : ByteStr) (h : mapLookup store k = none) :
    mapLookup
      (labels.foldl
        (fun s lab => OpenMlsKeyValueStore.delete CURRENT_VERSION lab (serGroupIdKey gid) s)
        store) k = none := by
  induction labels generalizing store with
  | nil => simpa using h
  | cons lab rest ih =>
    refine ih _ ?_
    unfold OpenMlsKeyValueStore.delete
    by_cases hk : k = b64encode (lab ++ serGroupIdKey gid ++ u16_to_be_bytes CURRENT_VERSION)
    · rw [hk, mapLookup_remove_self]
    · rw [mapLookup_remove_ne _ _ _ hk, h]

theorem mapLookup_foldl_delete (labels : List ByteStr) (gid : ByteStr) (store : Store)
    (L : ByteStr) (hL : L ∈ labels) :
    mapLookup
      (labels.foldl
        (fun s lab => OpenMlsKeyValueStore.delete CURRENT_VERSION lab (serGroupIdKey gid) s)
        store) (groupEntityKey L gid) = none := by
  induction labels generalizing store with
  | nil => cases hL
  | cons lab rest ih =>
    rcases List.mem_cons.mp hL with h | h
    · subst h
      refine mapLookup_none_foldl_delete rest gid _ _ ?_
      unfold OpenMlsKeyValueStore.delete
      have : groupEntityKey L gid =
          b64encode (L ++ serGroupIdKey gid ++ u16_to_be_bytes CURRENT_VERSION) := by
        simp [groupEntityKey, build_key_from_vec]
      rw [this, mapLookup_remove_self]
    · exact ih _ h

theorem queue_foldl_push (s : DmlsState) (ids : List ByteStr) :
    (ids.foldl DmlsState.push_exporter_psk_id s).exporter_psk_queue =
      s.exporter_psk_queue ++ ids := by
  induction ids generalizing s with
  | nil => simp
  | cons x rest ih =>
    simp [List.foldl_cons, ih, DmlsState.push_exporter_psk_id]

/-- A store holding one scalar entity whose bytes will not decode as the
requested entity type. -/
def storeScalar : Store := [(b64encode (build_key_from_vec 1 [0] [1]), b64encode [5])]

/-- A store holding one list entity `[[5]]` whose element will not decode as
the requested entity type. -/
def storeList : Store :=
  [(b64encode ([0] ++ [1] ++ u16_to_be_bytes 1), b64encode (serVecVec [[5]]))]

/-- An entity decoder that never succeeds. -/
def decNat : ByteStr → Option Nat := fun _ => none

/-- A group-state decoder that never succeeds. -/
def dNone : ByteStr → Option MlsGroup := fun _ => none

/-- A group-state decoder that always finds `gC`. -/
def dSome : ByteStr → Option MlsGroup := fun _ => some gC

/-- A session state whose send-group id is set and whose store holds a
decodable group-state entity for it. -/
def stLoaded : DmlsState :=
  { send_group_id := [1], exporter_psk_queue := [], signature_key_pair := skp0,
    openmls_values := [(groupEntityKey GROUP_STATE_LABEL [1], b64encode (serGroup gC))] }

/-- The state produced by the witness run of `force_self_update`. -/
def stSU : DmlsState := (force_self_update true esC [] 1 32 stFresh gC).1

/-- The state produced by the witness run of `send_group_update_base64`. -/
def stSGU : DmlsState := (send_group_update_base64 dSome true esC [] 1 32 stLoaded).2

/-- The base64 commit blob produced by the witness run of
`send_group_update_base64`. -/
def bSGU : ByteStr := b64encode (serCommitMsg (CommitMsg.mk []))

/-- A session state with two queued exporter-PSK ids. -/
def stQ : DmlsState :=
  { send_group_id := [], exporter_psk_queue := [[9], [8]], signature_key_pair := skp0,
    openmls_values := [] }

/-- The state produced by the witness run of `inject_psks`. -/
def stInj : DmlsState := (inject_psks true [] 1 stQ gC).1

/-- The commit produced by the witness run of `inject_psks`. -/
def msgInj : CommitMsg := CommitMsg.mk [PskProposal.mk 1 [] [9], PskProposal.mk 1 [] [8]]

/-- In every branch, `force_self_update` leaves the exporter-PSK queue of
the session state untouched. -/
theorem force_self_update_queue_eq (selfUpdOk : Bool)
    (es : MlsGroup → ByteStr → Nat → Option ByteStr) (nonce : ByteStr) (cs elen : Nat)
    (st : DmlsState) (g : MlsGroup) :
    (force_self_update selfUpdOk es nonce cs elen st g).1.exporter_psk_queue =
      st.exporter_psk_queue := by
  unfold force_self_update store_exporter_psk
  dsimp only
  split
  · split <;> rfl
  · rfl

/-! ## The claims -/

/-- C3, counterexample: two distinct `(label, rawKey, version)` triples with
equal encoded storage keys — `([0,1], [], 0)` and `([0], [1], 0)` both
encode to `[0, 1, 0, 0]`, so the claimed collision-freedom over arbitrary
labels is false. -/
theorem build_key_collision_cex :
    build_key_from_vec 0 [0, 1] [] = build_key_from_vec 0 [0] [1] ∧
    ¬(([0, 1] : ByteStr) = [0] ∧ ([] : ByteStr) = [1] ∧ (0 : Nat) = 0) := by decide

/-- C3, amended: for two triples whose labels have equal length — which
covers the store's usage, where every entity type has a fixed reserved
label and keys share a label — equal encoded storage keys force the labels,
raw keys and (16-bit) versions to coincide. -/
theorem build_key_inj_of_eq_label_len (l1 l2 k1 k2 : ByteStr) (v1 v2 : Nat)
    (hlen : l1.length = l2.length) (hv1 : v1 < 65536) (hv2 : v2 < 65536)
    (h : build_key_from_vec v1 l1 k1 = build_key_from_vec v2 l2 k2) :
    l1 = l2 ∧ k1 = k2 ∧ v1 = v2 := by
  unfold build_key_from_vec at h
  rw [List.append_assoc, List.append_assoc] at h
  obtain ⟨hl, hrest⟩ := List.append_inj h hlen
  obtain ⟨hk, hbe⟩ := List.append_inj' hrest (by simp [u16_to_be_bytes])
  refine ⟨hl, hk, ?_⟩
  simp only [u16_to_be_bytes, List.cons.injEq, and_true] at hbe
  omega

/-- C3, witness: the amended injectivity applied at the concrete triple
`([5], [7], 3)` against itself. -/
theorem build_key_inj_of_eq_label_len_witness :
    ([5] : ByteStr) = [5] ∧ ([7] : ByteStr) = [7] ∧ (3 : Nat) = 3 :=
  build_key_inj_of_eq_label_len [5] [5] [7] [7] 3 3 (by decide) (by decide) (by decide)
    (by decide)

/-- C4, the code at the failing input: `remove_item` on a key absent from
the store is claimed (and documented in the source) to be a no-op, but the
`entry(..).or_insert("[]")` call inserts the literal string `"[]"` (codes
`[91, 93]`) into the map — a mutation — and the subsequent
`Base64.decode(..).unwrap()` panics because `"[]"` is not valid base64. -/
theorem remove_item_absent_key_mutates_and_panics :
    OpenMlsKeyValueStore.remove_item CURRENT_VERSION TREE_LABEL (serGroupIdKey [1]) [2] [] =
      KvResult.panicked
        [(b64encode (build_key_from_vec CURRENT_VERSION TREE_LABEL (serGroupIdKey [1])),
          [91, 93])] := by decide

/-- C9, the code at the failing input: `append` on a key absent from the
store is claimed (and documented in the source) to create the list as empty
first, but the `entry(..).or_insert("[]")` call inserts the non-base64
literal `"[]"` and the following `Base64.decode(..).unwrap()` panics, so no
append on a fresh list key can ever succeed. -/
theorem append_absent_key_mutates_and_panics :
    OpenMlsKeyValueStore.append CURRENT_VERSION OWN_LEAF_NODES_LABEL (serGroupIdKey [1]) [2] [] =
      KvResult.panicked
        [(b64encode (build_key_from_vec CURRENT_VERSION OWN_LEAF_NODES_LABEL (serGroupIdKey [1])),
          [91, 93])] := by decide

/-- C5, counterexample: a present key whose stored bytes fail to decode
does not always produce `SerializationError` — when the stored value (here
the single character `'!'`, code 33) is not valid base64, `read` hits
`Base64.decode(..).unwrap()` and panics instead of returning the error. -/
theorem read_undecodable_value_panics_cex :
    OpenMlsKeyValueStore.read (fun bs => some bs) CURRENT_VERSION TREE_LABEL [1]
        [(b64encode (build_key_from_vec CURRENT_VERSION TREE_LABEL [1]), [33])] =
      KvResult.panicked
        [(b64encode (build_key_from_vec CURRENT_VERSION TREE_LABEL [1]), [33])] := by decide

/-- C5, amended: `read` returns `None` and `read_list` the empty sequence
on an absent key; when a present value base64-decodes but the entity-level
decode fails, both return `SerializationError`; base64 failures (and, for
`read_list`, an unparsable outer list) panic instead. -/
theorem read_and_read_list_error_handling :
    (∀ (V : Type) (d : ByteStr → Option V) (version : Nat) (label key : ByteStr) (store : Store),
        mapLookup store (b64encode (build_key_from_vec version label key)) = none →
        OpenMlsKeyValueStore.read d version label key store = KvResult.ok store none) ∧
    (∀ (V : Type) (d : ByteStr → Option V) (version : Nat) (label key : ByteStr) (store : Store),
        mapLookup store (b64encode (label ++ key ++ u16_to_be_bytes version)) = none →
        OpenMlsKeyValueStore.read_list d version label key store = KvResult.ok store []) ∧
    (∀ (V : Type) (d : ByteStr → Option V) (version : Nat) (label key : ByteStr)
        (store : Store) (value bytes : ByteStr),
        mapLookup store (b64encode (build_key_from_vec version label key)) = some value →
        b64decode value = some bytes → d bytes = none →
        OpenMlsKeyValueStore.read d version label key store =
          KvResult.err store KvError.serializationError) ∧
    (∀ (V : Type) (d : ByteStr → Option V) (version : Nat) (label key : ByteStr)
        (store : Store) (value bytes : ByteStr) (l : List ByteStr),
        mapLookup store (b64encode (label ++ key ++ u16_to_be_bytes version)) = some value →
        b64decode value = some bytes → parseVecVecFull bytes = some l → l.mapM d = none →
        OpenMlsKeyValueStore.read_list d version label key store =
          KvResult.err store KvError.serializationError) := by
  refine ⟨?_, ?_, ?_, ?_⟩
  · intro V d version label key store h
    simp only [OpenMlsKeyValueStore.read, h]
  · intro V d version label key store h
    simp only [OpenMlsKeyValueStore.read_list, h]
  · intro V d version label key store value bytes h hb hd
    simp only [OpenMlsKeyValueStore.read, h, hb, hd]
  · intro V d version label key store value bytes l h hb hp hm
    simp only [OpenMlsKeyValueStore.read_list, h, hb, hp, hm]

/-- C5, witness: the four amended cases, each applied at a concrete store —
absent keys on the empty store, a scalar `[5]` and a list `[[5]]` under a
decoder that rejects everything. -/
theorem read_and_read_list_error_handling_witness :
    OpenMlsKeyValueStore.read decNat 1 [0] [1] [] = KvResult.ok [] none ∧
    OpenMlsKeyValueStore.read_list decNat 1 [0] [1] [] = KvResult.ok [] [] ∧
    OpenMlsKeyValueStore.read decNat 1 [0] [1] storeScalar =
      KvResult.err storeScalar KvError.serializationError ∧
    OpenMlsKeyValueStore.read_list decNat 1 [0] [1] storeList =
      KvResult.err storeList KvError.serializationError :=
  ⟨read_and_read_list_error_handling.1 Nat decNat 1 [0] [1] [] (by decide),
   read_and_read_list_error_handling.2.1 Nat decNat 1 [0] [1] [] (by decide),
   read_and_read_list_error_handling.2.2.1 Nat decNat 1 [0] [1] storeScalar (b64encode [5]) [5]
     (by decide) (by decide) rfl,
   read_and_read_list_error_handling.2.2.2 Nat decNat 1 [0] [1] storeList
     (b64encode (serVecVec [[5]])) (serVecVec [[5]]) [[5]] (by decide) (by decide) (by decide)
     rfl⟩

/-- C7: pushing any sequence of PSK ids onto a fresh session state and then
draining returns exactly the pushed sequence in push order, and leaves the
queue empty. -/
theorem push_then_drain_fifo (skp : SignatureKeyPair) (ids : List ByteStr) :
    ((ids.foldl DmlsState.push_exporter_psk_id (DmlsState.new skp)).clear_exporter_psk_ids).1 =
        ids ∧
    ((ids.foldl DmlsState.push_exporter_psk_id
        (DmlsState.new skp)).clear_exporter_psk_ids).2.exporter_psk_queue = [] := by
  constructor
  · simp [DmlsState.clear_exporter_psk_ids, queue_foldl_push, DmlsState.new]
  · simp [DmlsState.clear_exporter_psk_ids]

/-- Helper: a `read` that returns `Ok` leaves the store untouched. -/
theorem kv_read_ok_store {V : Type} (d : ByteStr → Option V) (version : Nat)
    (label key : ByteStr) (store s : Store) (x : Option V)
    (h : OpenMlsKeyValueStore.read d version label key store = KvResult.ok s x) :
    s = store := by
  unfold OpenMlsKeyValueStore.read at h
  dsimp only at h
  split at h
  · injection h with h1 h2; exact h1.symm
  · split at h
    · simp at h
    · split at h
      · simp at h
      · injection h with h1 h2; exact h1.symm

/-- C8: when the send-group id is already set, `gen_send_group` fails with
the precondition error and leaves the state (hence the recorded id)
unchanged; a first call on an unset state succeeds and records the new
group's id into the state. -/
theorem gen_send_group_singleton :
    (∀ (ng : Option MlsGroup) (st : DmlsState),
        st.send_group_id?.isSome = true →
        gen_send_group ng st = (Except.error "Send group already exists", st)) ∧
    (∀ (g : MlsGroup) (st : DmlsState),
        st.send_group_id? = none →
        (gen_send_group (some g) st).1 = Except.ok g ∧
        (gen_send_group (some g) st).2.send_group_id = g.group_id) := by
  constructor
  · intro ng st h
    rcases hq : st.send_group_id? with _ | gid
    · rw [hq] at h; simp at h
    · simp only [gen_send_group, hq]
  · intro g st h
    simp [gen_send_group, h, DmlsState.set_send_group_id]

/-- C8, witness: the precondition failure on a bound state and the
successful first call on a fresh state. -/
theorem gen_send_group_singleton_witness :
    gen_send_group none stBound = (Except.error "Send group already exists", stBound) ∧
    ((gen_send_group (some gC) stFresh).1 = Except.ok gC ∧
      (gen_send_group (some gC) stFresh).2.send_group_id = gC.group_id) :=
  ⟨gen_send_group_singleton.1 none stBound (by decide),
   gen_send_group_singleton.2 gC stFresh (by decide)⟩

/-- C10, counterexample: the claim that `send_group`'s error return is
reachable only when the send-group id is unset is false — with the id set
and a present but undecodable group-state entity, the storage load fails
with `SerializationError`, which `?` propagates as an error return. -/
theorem send_group_error_with_set_id_cex :
    send_group dNone stCorrupt = .error "SerializationError" ∧
    stCorrupt.send_group_id?.isSome = true := by decide

/-- C10, amended: `send_group` panics (the `unwrap()` of `None`) exactly
when the id is set and the load succeeds finding no group; its error return
is reachable when the id is unset or when the storage load itself fails;
and a non-panic success requires a set id referring to a loadable group. -/
theorem send_group_panic_and_error_cases :
    (∀ (d : ByteStr → Option MlsGroup) (st : DmlsState),
        st.send_group_id? = none → send_group d st = .error "No send group exists") ∧
    (∀ (d : ByteStr → Option MlsGroup) (st : DmlsState),
        st.send_group_id?.isSome = true →
        mls_group_load d st.openmls_values st.send_group_id =
          KvResult.ok st.openmls_values none →
        send_group d st = .panicked) ∧
    (∀ (d : ByteStr → Option MlsGroup) (st : DmlsState) (g : MlsGroup),
        send_group d st = .ok g →
        st.send_group_id? = some st.send_group_id ∧
        mls_group_load d st.openmls_values st.send_group_id =
          KvResult.ok st.openmls_values (some g)) := by
  refine ⟨?_, ?_, ?_⟩
  · intro d st h
    simp only [send_group, h]
  · intro d st hs hload
    rcases hq : st.send_group_id? with _ | gid
    · rw [hq] at hs; simp at hs
    · have hgid : gid = st.send_group_id := by
        unfold DmlsState.send_group_id? at hq
        split at hq
        · cases hq
        · injection hq with h1; exact h1.symm
      subst hgid
      simp only [send_group, hq, hload]
  · intro d st g h
    rcases hq : st.send_group_id? with _ | gid
    · simp only [send_group, hq] at h
      cases h
    · have hgid : gid = st.send_group_id := by
        unfold DmlsState.send_group_id? at hq
        split at hq
        · cases hq
        · injection hq with h1; exact h1.symm
      subst hgid
      simp only [send_group, hq] at h
      rcases hl : mls_group_load d st.openmls_values st.send_group_id with ⟨s, _ | g0⟩ | ⟨s, e⟩ | s
      · rw [hl] at h; simp at h
      · rw [hl] at h
        dsimp only at h
        injection h with h1
        subst h1
        have hs : s = st.openmls_values := by
          have hl2 := hl
          unfold mls_group_load at hl2
          exact kv_read_ok_store d CURRENT_VERSION GROUP_STATE_LABEL
            (serGroupIdKey st.send_group_id) st.openmls_values s (some g0) hl2
        subst hs
        exact ⟨rfl, rfl⟩
      · rw [hl] at h; simp at h
      · rw [hl] at h; simp at h

/-- C10, witness: the three amended cases applied concretely — unset id,
set id with an empty store (panic), and set id with a loadable group. -/
theorem send_group_panic_and_error_cases_witness :
    send_group dNone stFresh = .error "No send group exists" ∧
    send_group dNone stBound = .panicked ∧
    (stLoaded.send_group_id? = some stLoaded.send_group_id ∧
      mls_group_load dSome stLoaded.openmls_values stLoaded.send_group_id =
        KvResult.ok stLoaded.openmls_values (some gC)) :=
  ⟨send_group_panic_and_error_cases.1 dNone stFresh (by decide),
   send_group_panic_and_error_cases.2.1 dNone stBound (by decide) (by decide),
   send_group_panic_and_error_cases.2.2 dSome stLoaded gC (by decide)⟩

/-- C2, counterexample: a successful self-update does not grow the
exporter-PSK queue — on a fresh state (queue length 0) the call succeeds
and the queue length is still 0, not 1: `store_exporter_psk`'s returned id
is dropped, never pushed. -/
theorem self_update_queue_unchanged_cex :
    ((force_self_update true esC [] 1 32 stFresh gC).2).isSome = true ∧
    (force_self_update true esC [] 1 32 stFresh gC).1.exporter_psk_queue.length ≠
      stFresh.exporter_psk_queue.length + 1 := by decide

/-- C2, amended: a successful self-update derives the new epoch's exporter
PSK and stores it in the KV store under the PSK label (so a later injection
can look it up), but leaves the session state's exporter-PSK queue exactly
as it was — both for `force_self_update` and for the
`send_group_update_base64` wrapper. -/
theorem force_self_update_spec :
    (∀ (selfUpdOk : Bool) (es : MlsGroup → ByteStr → Nat → Option ByteStr)
        (nonce : ByteStr) (cs elen : Nat) (st : DmlsState) (g : MlsGroup)
        (st' : DmlsState) (msg : CommitMsg) (g' : MlsGroup),
        force_self_update selfUpdOk es nonce cs elen st g = (st', some (msg, g')) →
        st'.exporter_psk_queue = st.exporter_psk_queue ∧
        g'.epoch = g.epoch + 1 ∧
        mapLookup st'.openmls_values
            (b64encode (build_key_from_vec CURRENT_VERSION PSK_LABEL
              (serPskIdKey cs nonce (u64_to_be_bytes g'.epoch ++ g'.group_id)))) =
          (es g' (u64_to_be_bytes g'.epoch ++ g'.group_id) elen).map
            (fun s => b64encode (serPskBundle s)) ∧
        (es g' (u64_to_be_bytes g'.epoch ++ g'.group_id) elen).isSome = true) ∧
    (∀ (decodeG : ByteStr → Option MlsGroup) (selfUpdOk : Bool)
        (es : MlsGroup → ByteStr → Nat → Option ByteStr) (nonce : ByteStr)
        (cs elen : Nat) (st : DmlsState) (b : ByteStr) (st₂ : DmlsState),
        send_group_update_base64 decodeG selfUpdOk es nonce cs elen st = (.ok b, st₂) →
        st₂.exporter_psk_queue = st.exporter_psk_queue) := by
  constructor
  · intro selfUpdOk es nonce cs elen st g st' msg g' h
    have hq : st'.exporter_psk_queue = st.exporter_psk_queue := by
      have hall := force_self_update_queue_eq selfUpdOk es nonce cs elen st g
      rw [h] at hall
      exact hall
    refine ⟨hq, ?_⟩
    cases selfUpdOk with
    | false => exfalso; simp [force_self_update] at h
    | true =>
        unfold force_self_update store_exporter_psk at h
        dsimp only at h
        rcases hes : es { g with epoch := g.epoch + 1 }
            (u64_to_be_bytes ({ g with epoch := g.epoch + 1 } : MlsGroup).epoch ++
              ({ g with epoch := g.epoch + 1 } : MlsGroup).group_id) elen with _ | secret
        · rw [hes] at h
          simp at h
        · rw [hes] at h
          dsimp only at h
          simp only [if_true, Prod.mk.injEq, Option.some.injEq] at h
          obtain ⟨h1, h2, h3⟩ := h
          subst h1
          subst h3
          refine ⟨rfl, ?_, ?_⟩
          · dsimp only at hes ⊢
            rw [hes]
            simp [write_psk, OpenMlsKeyValueStore.write, mapLookup_insert]
          · dsimp only at hes ⊢
            rw [hes]
            rfl
  · intro decodeG selfUpdOk es nonce cs elen st b st₂ h
    unfold send_group_update_base64 at h
    rcases hsg : send_group decodeG st with g0 | e | _
    · rw [hsg] at h
      dsimp only at h
      unfold force_self_update_base64 at h
      rcases hF : force_self_update selfUpdOk es nonce cs elen st g0 with ⟨st1, r⟩
      have hq1 : st1.exporter_psk_queue = st.exporter_psk_queue := by
        have hall := force_self_update_queue_eq selfUpdOk es nonce cs elen st g0
        rw [hF] at hall
        exact hall
      rw [hF] at h
      rcases r with _ | ⟨msg, g'⟩
      · simp at h
      · dsimp only at h
        unfold store_exporter_psk at h
        dsimp only at h
        rcases hes : es g' (u64_to_be_bytes g'.epoch ++ g'.group_id) elen with _ | secret
        · rw [hes] at h; simp at h
        · rw [hes] at h
          dsimp only at h
          simp only [Prod.mk.injEq, HelperResult.ok.injEq] at h
          obtain ⟨h1, h2⟩ := h
          subst h2
          exact hq1
    · rw [hsg] at h; simp at h
    · rw [hsg] at h; simp at h

/-- C2, witness: the amended statement at the concrete witness runs of
`force_self_update` and `send_group_update_base64`. -/
theorem force_self_update_spec_witness :
    (stSU.exporter_psk_queue = stFresh.exporter_psk_queue ∧
      gC1.epoch = gC.epoch + 1 ∧
      mapLookup stSU.openmls_values
          (b64encode (build_key_from_vec CURRENT_VERSION PSK_LABEL
            (serPskIdKey 1 [] (u64_to_be_bytes gC1.epoch ++ gC1.group_id)))) =
        (esC gC1 (u64_to_be_bytes gC1.epoch ++ gC1.group_id) 32).map
          (fun s => b64encode (serPskBundle s)) ∧
      (esC gC1 (u64_to_be_bytes gC1.epoch ++ gC1.group_id) 32).isSome = true) ∧
    stSGU.exporter_psk_queue = stLoaded.exporter_psk_queue :=
  ⟨force_self_update_spec.1 true esC [] 1 32 stFresh gC stSU (CommitMsg.mk []) gC1 (by decide),
   force_self_update_spec.2 dSome true esC [] 1 32 stLoaded bSGU stSGU (by decide)⟩

/-- C6: a successful `inject_psks` leaves the queue empty and builds a
commit holding exactly one pre-shared-key proposal per previously queued
identifier, in queue (drain) order; and when the engine pipeline succeeds
the call succeeds — an empty queue is not an error, it merely contributes
no proposals. -/
theorem inject_psks_drains_in_order :
    (∀ (buildOk : Bool) (nonce : ByteStr) (cs : Nat) (st : DmlsState) (g : MlsGroup)
        (st' : DmlsState) (msg : CommitMsg) (g' : MlsGroup),
        inject_psks buildOk nonce cs st g = (st', some (msg, g')) →
        st'.exporter_psk_queue = [] ∧
        msg.pskProposals = st.exporter_psk_queue.map (fun id => PskProposal.mk cs nonce id)) ∧
    (∀ (nonce : ByteStr) (cs : Nat) (st : DmlsState) (g : MlsGroup),
        ((inject_psks true nonce cs st g).2).isSome = true ∧
        (inject_psks true nonce cs st g).1.exporter_psk_queue = []) := by
  constructor
  · intro buildOk nonce cs st g st' msg g' h
    cases buildOk with
    | false =>
        exfalso
        simp [inject_psks, DmlsState.clear_exporter_psk_ids] at h
    | true =>
        unfold inject_psks DmlsState.clear_exporter_psk_ids at h
        dsimp only at h
        simp only [if_true, Prod.mk.injEq, Option.some.injEq] at h
        obtain ⟨h1, h2, h3⟩ := h
        subst h1
        constructor
        · rfl
        · rw [← h2]
  · intro nonce cs st g
    constructor
    · simp [inject_psks, DmlsState.clear_exporter_psk_ids]
    · simp [inject_psks, DmlsState.clear_exporter_psk_ids]

/-- C6, witness: the drain property at a concrete two-element queue, and
the engine-success case at the same state. -/
theorem inject_psks_drains_in_order_witness :
    (stInj.exporter_psk_queue = [] ∧
      msgInj.pskProposals = stQ.exporter_psk_queue.map (fun id => PskProposal.mk 1 [] id)) ∧
    (((inject_psks true [] 1 stQ gC).2).isSome = true ∧
      (inject_psks true [] 1 stQ gC).1.exporter_psk_queue = []) :=
  ⟨inject_psks_drains_in_order.1 true [] 1 stQ gC stInj msgInj gC1 (by decide),
   inject_psks_drains_in_order.2 [] 1 stQ gC⟩

/-- C1: for every staged commit whose application via `apply_commit`
succeeds, exactly one of the two side effects occurs — either the
exporter-PSK queue grew by one (participant still active), or every
per-group-id entity was deleted from the KV store (participant evicted) —
never both and never neither. -/
theorem apply_commit_exclusive (es : MlsGroup → ByteStr → Nat → Option ByteStr)
    (nonce : ByteStr) (cs elen : Nat) (st : DmlsState) (g : MlsGroup) (c : StagedCommit)
    (st' : DmlsState) (g' : MlsGroup)
    (h : apply_commit es nonce cs elen st g c = some (st', g')) :
    Xor' (st'.exporter_psk_queue.length = st.exporter_psk_queue.length + 1)
      (no_group_entities g'.group_id st'.openmls_values = true) := by
  by_cases hok : c.merge_ok
  case neg =>
    exfalso
    unfold apply_commit merge_staged_commit at h
    rw [if_neg hok] at h
    simp at h
  case pos =>
  unfold apply_commit merge_staged_commit store_exporter_psk at h
  rw [if_pos hok] at h
  dsimp only at h
  by_cases hact : c.still_active
  case pos =>
    rw [if_pos hact] at h
    rcases hes : es { group_id := g.group_id, epoch := c.new_epoch, active := c.still_active }
        (u64_to_be_bytes c.new_epoch ++ g.group_id) elen with _ | secret
    · rw [hes] at h
      simp at h
    · rw [hes] at h
      dsimp only at h
      simp only [Option.some.injEq, Prod.mk.injEq] at h
      obtain ⟨h1, h2⟩ := h
      subst h1
      subst h2
      left
      refine ⟨by simp [DmlsState.push_exporter_psk_id], ?_⟩
      intro hB
      have hmem : GROUP_STATE_LABEL ∈ groupLabels := by decide
      have hnone := List.all_eq_true.mp hB GROUP_STATE_LABEL hmem
      have hne : b64encode (build_key_from_vec CURRENT_VERSION PSK_LABEL
          (serPskIdKey cs nonce (u64_to_be_bytes c.new_epoch ++ g.group_id))) ≠
          b64encode (build_key_from_vec CURRENT_VERSION GROUP_STATE_LABEL
            (serGroupIdKey g.group_id)) := by
        have hP : PSK_LABEL = [80, 115, 107] := by decide
        have hG : GROUP_STATE_LABEL = [71, 114, 111, 117, 112, 83, 116, 97, 116, 101] := by
          decide
        unfold build_key_from_vec
        rw [hP, hG]
        simp only [List.append_assoc, List.cons_append, List.nil_append]
        exact b64encode_ne_of_head 80 71 _ _ (by omega) (by omega) (by decide)
      dsimp only [groupEntityKey, DmlsState.push_exporter_psk_id, write_psk,
        write_group_state, OpenMlsKeyValueStore.write] at hnone
      rw [mapLookup_insert_ne _ _ _ _ (Ne.symm hne), mapLookup_insert] at hnone
      simp at hnone
  case neg =>
    rw [if_neg hact] at h
    simp only [Option.some.injEq, Prod.mk.injEq] at h
    obtain ⟨h1, h2⟩ := h
    subst h1
    subst h2
    right
    constructor
    · apply List.all_eq_true.mpr
      intro L hL
      have hnone : mapLookup
          (mls_group_delete (MlsGroup.mk g.group_id c.new_epoch c.still_active)
            (write_group_state g.group_id
              (serGroup (MlsGroup.mk g.group_id c.new_epoch c.still_active))
              st.openmls_values))
          (groupEntityKey L g.group_id) = none := by
        unfold mls_group_delete
        exact mapLookup_foldl_delete groupLabels g.group_id _ L hL
      dsimp only
      rw [hnone]
      rfl
    · intro hlen
      dsimp only at hlen
      omega

/-- C1, witness: the exclusivity at a concrete successful application of a
member-keeping commit on a fresh state. -/
theorem apply_commit_exclusive_witness :
    Xor' (stKeep.exporter_psk_queue.length = stFresh.exporter_psk_queue.length + 1)
      (no_group_entities gC1.group_id stKeep.openmls_values = true) :=
  apply_commit_exclusive esC [] 1 32 stFresh gC cKeep stKeep gC1 (by decide)
